import Mathlib

/-!
Verification development for the `voice-utils` repository.

This file gives a shallow embedding, in Lean 4, of the session-lifecycle
core of the repository:

* `src/input_handler.py` — `KeyboardShortcutHandler`: shortcut parsing,
  combination matching with modifier-key equivalence, and the
  press/release state machine with toggle/hold modes and timing gates;
* `src/event_based/input_handler.py` — `StatefulKeyboardHandler`: the
  stateful Idle/Recording handler and its signal emission;
* `src/event_based/recording_signal_publisher.py` —
  `RecordingSignalPublisher`: the session-id → workflow-id table and its
  Start/Stop/Cancel/Exit handlers;
* `src/event_based/recording_workflow.py` — `RecordingWorkflow.run`: the
  order of published lifecycle events on each exit path of the
  supervision loop.

Python floats used as timestamps (`time.time()`) are modelled as
rationals; Python sets and dicts are modelled as lists with explicit
membership / unique-key discipline.  Exceptions are modelled with
explicit outcome values (`Except`-style), and asynchronous scheduling
with an explicit list of observations made by the polling loop.
-/

namespace VoiceUtils

/-! ### Keys

`pynput` named keys that appear in `KEY_MAPPINGS` of
`KeyboardShortcutHandler` (src/input_handler.py lines 113-130). -/

inductive SpecialKey where
  | ctrl | ctrl_l | ctrl_r
  | shift | shift_l | shift_r
  | alt | alt_l | alt_r
  | cmd | cmd_l | cmd_r
  | space | esc
  deriving DecidableEq, Repr

/-- A value as it occurs in the handler's `pressed_keys` set or in a parsed
combination: a `pynput` named key object, a `keyboard.KeyCode` object with
its character (`KeyCode.from_char`), or a plain character string
(`key.char.lower()` is stored for character keys, and single-character
tokens such as `"."` or `"w"` occur in parsed combinations). -/
inductive KeyVal where
  | special (k : SpecialKey)
  | code (c : Char)
  | ch (s : String)
  deriving DecidableEq, Repr

/-- `KEY_MAPPINGS` of `KeyboardShortcutHandler`
(src/input_handler.py lines 113-130): map of shortcut token names to
`pynput` key objects; `"."` and `"w"` map to themselves as strings. -/
def KEY_MAPPINGS (s : String) : Option KeyVal :=
  match s with
  | "ctrl" => some (.special .ctrl)
  | "ctrl_l" => some (.special .ctrl_l)
  | "ctrl_r" => some (.special .ctrl_r)
  | "shift" => some (.special .shift)
  | "shift_l" => some (.special .shift_l)
  | "shift_r" => some (.special .shift_r)
  | "alt" => some (.special .alt)
  | "alt_l" => some (.special .alt_l)
  | "alt_r" => some (.special .alt_r)
  | "cmd" => some (.special .cmd)
  | "cmd_l" => some (.special .cmd_l)
  | "cmd_r" => some (.special .cmd_r)
  | "space" => some (.special .space)
  | "." => some (.ch ".")
  | "w" => some (.ch "w")
  | "esc" => some (.special .esc)
  | _ => none

/-- `KEY_EQUIVALENTS` of `KeyboardShortcutHandler`
(src/input_handler.py lines 133-138): only the four canonical modifier
keys are dictionary keys; each maps to its group of equivalent keys. -/
def KEY_EQUIVALENTS (k : KeyVal) : Option (List KeyVal) :=
  match k with
  | .special .ctrl =>
      some [.special .ctrl, .special .ctrl_l, .special .ctrl_r]
  | .special .shift =>
      some [.special .shift, .special .shift_l, .special .shift_r]
  | .special .alt =>
      some [.special .alt, .special .alt_l, .special .alt_r]
  | .special .cmd =>
      some [.special .cmd, .special .cmd_l, .special .cmd_r]
  | _ => none

/-- Python's `str.split("+")` on the character list of the string: splits at
every `'+'`, keeping empty segments (so `"".split("+") == [""]` and
`"a++b".split("+") == ["a", "", "b"]`). -/
def splitPlus : List Char → List (List Char)
  | [] => [[]]
  | c :: rest =>
    let r := splitPlus rest
    if c = '+' then [] :: r
    else
      match r with
      | [] => [[c]]
      | h :: t => (c :: h) :: t

/-- `KeyboardShortcutHandler._parse_key_combination`
(src/input_handler.py lines 194-203): lower-case the string, split on
`"+"`, map each segment through `KEY_MAPPINGS`, and keep unmapped
segments as literal character strings.  The source raises no error on
any input. -/
def parseKeyCombination (s : String) : List KeyVal :=
  (splitPlus (s.data.map Char.toLower)).map fun cs =>
    (KEY_MAPPINGS ⟨cs⟩).getD (.ch ⟨cs⟩)

/-- Body of the loop of `KeyboardShortcutHandler._is_combination_pressed`
(src/input_handler.py lines 237-250) for one combination token: the
`"."` token matches either the string `"."` or
`KeyCode.from_char('.')`; tokens outside `KEY_EQUIVALENTS` need an
exact match; canonical modifier tokens are matched by any key of their
equivalence group. -/
def tokenMatches (comboKey : KeyVal) (pressed : List KeyVal) : Bool :=
  if comboKey = .ch "." then
    pressed.contains (.ch ".") || pressed.contains (.code '.')
  else
    match KEY_EQUIVALENTS comboKey with
    | none => pressed.contains comboKey
    | some eqs => eqs.any fun k => pressed.contains k

/-- `KeyboardShortcutHandler._is_combination_pressed`
(src/input_handler.py lines 227-251): every combination token must be
matched in the pressed set. -/
def isCombinationPressed (combination pressed : List KeyVal) : Bool :=
  combination.all fun comboKey => tokenMatches comboKey pressed

/-! ### `KeyboardShortcutHandler` state machine

Configuration and mutable state of `KeyboardShortcutHandler`
(src/input_handler.py lines 140-175).  `time.time()` timestamps are
modelled as rationals; the Python initial values are
`recording_start_time = 0`, `last_recording_end_time = 0`,
`last_shortcut_time = 0`, and `shortcut_cooldown = 0.5`. -/

/-- Commands of the `InputCommand` enum (src/input_handler.py lines 8-21). -/
inductive InputCommand where
  | START_RECORDING
  | STOP_RECORDING
  | CANCEL
  | EXIT
  deriving DecidableEq, Repr

structure KSHConfig where
  recordKeys : List KeyVal
  exitKeys : List KeyVal
  cancelKeys : List KeyVal
  toggleMode : Bool
  minRecordingDuration : ℚ
  cooldownPeriod : ℚ
  shortcutCooldown : ℚ
  deriving Repr

structure KSHState where
  pressedKeys : List KeyVal
  isRecording : Bool
  recordingStartTime : ℚ
  lastRecordingEndTime : ℚ
  lastShortcutTime : ℚ
  deriving Repr

/-- The handler state right after `__init__` / `start()`
(src/input_handler.py lines 157-171 and 391-395). -/
def initialKSHState : KSHState :=
  { pressedKeys := []
    isRecording := false
    recordingStartTime := 0
    lastRecordingEndTime := 0
    lastShortcutTime := 0 }

/-- `KeyboardShortcutHandler._can_start_recording`
(src/input_handler.py lines 438-442). -/
def canStartRecording (st : KSHState) (now : ℚ) (cfg : KSHConfig) : Bool :=
  if st.lastRecordingEndTime = 0 then true
  else decide (now - st.lastRecordingEndTime ≥ cfg.cooldownPeriod)

/-- `KeyboardShortcutHandler._can_stop_recording`
(src/input_handler.py lines 444-448). -/
def canStopRecording (st : KSHState) (now : ℚ) (cfg : KSHConfig) : Bool :=
  if st.recordingStartTime = 0 then true
  else decide (now - st.recordingStartTime ≥ cfg.minRecordingDuration)

/-- Python `set.add`: insert if absent. -/
def insertKey (k : KeyVal) (l : List KeyVal) : List KeyVal :=
  if l.contains k then l else k :: l

/-- Python `set.remove` guarded by a membership test
(src/input_handler.py lines 346-347). -/
def removeKey (k : KeyVal) (l : List KeyVal) : List KeyVal :=
  l.filter (· ≠ k)

structure PressResult where
  state : KSHState
  signals : List InputCommand
  continueListening : Bool
  deriving Repr

structure ReleaseResult where
  state : KSHState
  signals : List InputCommand
  deriving Repr

/-- `KeyboardShortcutHandler._on_key_press`
(src/input_handler.py lines 253-334).  The argument `kv` is the
normalized key value (`key.char.lower()` for character keys, the raw
key object otherwise); `now` is the value `time.time()` would return
during this call.  Emitted commands are returned in trigger order;
`continueListening` is the handler's return value (`False` stops the
listener). -/
def onKeyPress (cfg : KSHConfig) (st : KSHState) (kv : KeyVal) (now : ℚ) :
    PressResult :=
  let st := { st with pressedKeys := insertKey kv st.pressedKeys }
  if isCombinationPressed cfg.exitKeys st.pressedKeys then
    { state := st, signals := [.EXIT], continueListening := false }
  else if st.isRecording && isCombinationPressed cfg.cancelKeys st.pressedKeys then
    { state := { st with isRecording := false, lastRecordingEndTime := now }
      signals := [.CANCEL], continueListening := true }
  else if isCombinationPressed cfg.recordKeys st.pressedKeys then
    if cfg.toggleMode then
      if now - st.lastShortcutTime > cfg.shortcutCooldown then
        let st := { st with lastShortcutTime := now }
        if !st.isRecording then
          if canStartRecording st now cfg then
            { state := { st with isRecording := true, recordingStartTime := now }
              signals := [.START_RECORDING], continueListening := true }
          else
            { state := st, signals := [], continueListening := true }
        else
          if canStopRecording st now cfg then
            { state := { st with isRecording := false, lastRecordingEndTime := now }
              signals := [.STOP_RECORDING], continueListening := true }
          else
            { state := st, signals := [], continueListening := true }
      else
        { state := st, signals := [], continueListening := true }
    else
      if !st.isRecording then
        if canStartRecording st now cfg then
          { state := { st with isRecording := true, recordingStartTime := now }
            signals := [.START_RECORDING], continueListening := true }
        else
          { state := st, signals := [], continueListening := true }
      else
        { state := st, signals := [], continueListening := true }
  else
    { state := st, signals := [], continueListening := true }

/-- The loop of `_on_key_release` over `self.record_keys`
(src/input_handler.py lines 374-383): the released key value matches a
shortcut key directly or through `KEY_EQUIVALENTS`. -/
def releaseMatches (kv : KeyVal) (recordKeys : List KeyVal) : Bool :=
  recordKeys.any fun sk =>
    kv = sk ||
      (match KEY_EQUIVALENTS sk with
       | some eqs => eqs.contains kv
       | none => false)

/-- `KeyboardShortcutHandler._on_key_release`
(src/input_handler.py lines 336-389).  In hold mode while recording:
if the minimum-duration gate fails, nothing happens; otherwise the
period key stops recording when `"."` is a record token (lines
364-371), and any released key matching a record token (directly or
via an equivalence group) stops recording, emitting one
`STOP_RECORDING` (the loop breaks after the first match). -/
def onKeyRelease (cfg : KSHConfig) (st : KSHState) (kv : KeyVal) (now : ℚ) :
    ReleaseResult :=
  let st := { st with pressedKeys := removeKey kv st.pressedKeys }
  if !cfg.toggleMode && st.isRecording then
    if !canStopRecording st now cfg then
      { state := st, signals := [] }
    else if (kv = .ch "." || kv = .code '.') && (cfg.recordKeys.contains (.ch ".")) then
      { state := { st with isRecording := false, lastRecordingEndTime := now }
        signals := [.STOP_RECORDING] }
    else if releaseMatches kv cfg.recordKeys then
      { state := { st with isRecording := false, lastRecordingEndTime := now }
        signals := [.STOP_RECORDING] }
    else
      { state := st, signals := [] }
  else
    { state := st, signals := [] }

/-- Fold a sequence of timed presses through `onKeyPress`, concatenating
the emitted commands. -/
def pressSeq (cfg : KSHConfig) (st : KSHState) :
    List (KeyVal × ℚ) → KSHState × List InputCommand
  | [] => (st, [])
  | (kv, t) :: rest =>
    let r := onKeyPress cfg st kv t
    let (st', sigs) := pressSeq cfg r.state rest
    (st', r.signals ++ sigs)

/-! ### `StatefulKeyboardHandler` (src/event_based/input_handler.py) -/

/-- `RecordingState` (src/event_based/input_handler.py lines 14-16). -/
inductive RecordingState where
  | IDLE
  | RECORDING
  deriving DecidableEq, Repr

/-- The signal dataclasses of src/event_based/events.py, restricted to the
fields the handler sets: `StartRecordingSignal(session_id, source)`,
`StopRecordingSignal(session_id, source)`,
`CancelRecordingSignal(session_id, source, reason)`,
`ExitSignal(source)`; the source is always `InputSource.KEYBOARD` here,
so it is omitted. -/
inductive Sig where
  | start (sessionId : String)
  | stop (sessionId : String)
  | cancel (sessionId : String) (reason : String)
  | exitSig
  deriving DecidableEq, Repr

structure SKHConfig where
  activationKeys : List KeyVal
  exitKeys : List KeyVal
  deriving Repr

structure SKHState where
  pressedKeys : List KeyVal
  recordingState : RecordingState
  currentSessionId : Option String
  deriving Repr

/-- Python truthiness of `self.current_session_id`: not `None` and not
the empty string. -/
def sessionTruthy : Option String → Bool
  | none => false
  | some s => s ≠ ""

/-- `StatefulKeyboardHandler._is_combo_pressed`
(src/event_based/input_handler.py lines 68-70): plain membership, no
equivalence groups. -/
def isComboPressed (combo pressed : List KeyVal) : Bool :=
  combo.all fun k => pressed.contains k

/-- `StatefulKeyboardHandler._handle_activation`
(src/event_based/input_handler.py lines 88-111).  `fresh` stands for
the `uuid.uuid4()` string generated on the start path. -/
def handleActivation (fresh : String) (st : SKHState) : SKHState × List Sig :=
  match st.recordingState with
  | .IDLE =>
    let sessionId := "session-" ++ fresh
    ({ st with currentSessionId := some sessionId
               recordingState := .RECORDING },
     [.start sessionId])
  | .RECORDING =>
    let sigs :=
      if sessionTruthy st.currentSessionId then
        [Sig.stop (st.currentSessionId.getD "")]
      else []
    ({ st with recordingState := .IDLE, currentSessionId := none }, sigs)

/-- `StatefulKeyboardHandler._handle_exit`
(src/event_based/input_handler.py lines 113-133): while recording with
a truthy session id, first emit `CancelRecordingSignal(sid, KEYBOARD,
"exit_requested")`, then always emit `ExitSignal`, and reset the state
to `IDLE` with no session id. -/
def handleExit (st : SKHState) : SKHState × List Sig :=
  let cancelSigs :=
    if st.recordingState = RecordingState.RECORDING
        && sessionTruthy st.currentSessionId then
      [Sig.cancel (st.currentSessionId.getD "") "exit_requested"]
    else []
  ({ st with recordingState := .IDLE, currentSessionId := none },
   cancelSigs ++ [Sig.exitSig])

/-- `StatefulKeyboardHandler._on_key_press`
(src/event_based/input_handler.py lines 72-82): add the key, then check
the activation combination, then (not `elif`) the exit combination. -/
def skhOnKeyPress (cfg : SKHConfig) (fresh : String) (st : SKHState)
    (key : KeyVal) : SKHState × List Sig :=
  let st1 := { st with pressedKeys := insertKey key st.pressedKeys }
  let (st2, sigs1) :=
    if isComboPressed cfg.activationKeys st1.pressedKeys then
      handleActivation fresh st1
    else (st1, [])
  let (st3, sigs2) :=
    if isComboPressed cfg.exitKeys st2.pressedKeys then
      handleExit st2
    else (st2, [])
  (st3, sigs1 ++ sigs2)

/-! ### Listener delivery

Each registered callback's behaviour on the delivered value is
represented by the outcome of calling it: `Except.ok ()` for a normal
return, `Except.error msg` for a raised exception. -/

/-- `InputHandler._trigger_command` (src/input_handler.py lines 49-59):
`for callback in self.command_callbacks[command]: callback(...)` with no
exception handling.  Returns the 0-based indices of the callbacks that
were invoked, and the exception that propagated out of the loop, if
any. -/
def triggerCommandRun : List (Except String Unit) → List Nat × Option String
  | [] => ([], none)
  | outcome :: rest =>
    match outcome with
    | .ok _ =>
      let (invoked, err) := triggerCommandRun rest
      (0 :: invoked.map (· + 1), err)
    | .error e => ([0], some e)

/-- `StatefulKeyboardHandler._emit_signal`
(src/event_based/input_handler.py lines 51-57): each callback is called
inside `try/except Exception`, the error being logged.  Returns the
indices of the callbacks invoked and the logged error messages. -/
def emitSignalRun : List (Except String Unit) → List Nat × List String
  | [] => ([], [])
  | outcome :: rest =>
    let (invoked, logs) := emitSignalRun rest
    match outcome with
    | .ok _ => (0 :: invoked.map (· + 1), logs)
    | .error e => (0 :: invoked.map (· + 1), e :: logs)

/-! ### `RecordingSignalPublisher` (src/event_based/recording_signal_publisher.py)

`self.active_workflows: Dict[str, str]` is modelled as an association
list with unique keys, insertion replacing the value of an existing
key and otherwise appending. -/

abbrev WorkflowTable := List (String × String)

/-- Python `dict.get`. -/
def dictGet (t : WorkflowTable) (k : String) : Option String :=
  (t.find? fun p => p.1 = k).map (·.2)

/-- Python `dict[k] = v`: replace the value at an existing key, else
append the new binding. -/
def dictInsert (t : WorkflowTable) (k v : String) : WorkflowTable :=
  if t.any (fun p => p.1 = k) then
    t.map fun p => if p.1 = k then (k, v) else p
  else t ++ [(k, v)]

/-- Python `dict.pop(k, None)`: drop the binding for `k`. -/
def dictPop (t : WorkflowTable) (k : String) : WorkflowTable :=
  t.filter fun p => p.1 ≠ k

/-- One asynchronous handler invocation of the publisher.  The `ok` flag
on `start` is whether `client.start_workflow` succeeded, and on `stop`
and `cancel` whether `handle.signal(...)` succeeded; a raised exception
is caught by the handler's `except` block after skipping the rest of
the `try` body. -/
inductive PubOp where
  | start (sessionId : String) (ok : Bool)
  | stop (sessionId : String) (ok : Bool)
  | cancel (sessionId : String) (ok : Bool)
  | exitAll
  deriving DecidableEq, Repr

/-- Effect of each publisher handler on `active_workflows`:

* `_handle_start_recording` (lines 47-66): on success, stores
  `session_id -> "recording-" + session_id`; on failure the assignment
  is never reached.
* `_handle_stop_recording` (lines 69-84): never modifies the table —
  an unknown id is a logged warning, a known id only gets the signal
  sent to its workflow.
* `_handle_cancel_recording` (lines 87-105): unknown id is a warning;
  on a known id the signal is sent and then the entry popped; if
  `handle.signal` raises, the pop is skipped.
* `_handle_exit` (lines 108-122): signals every entry (errors logged)
  and then clears the table. -/
def applyPubOp (t : WorkflowTable) : PubOp → WorkflowTable
  | .start sessionId ok =>
    if ok then dictInsert t sessionId ("recording-" ++ sessionId) else t
  | .stop _ _ => t
  | .cancel sessionId ok =>
    match dictGet t sessionId with
    | none => t
    | some _ => if ok then dictPop t sessionId else t
  | .exitAll => []

/-- Run a sequence of publisher operations from the initial empty table
(src/event_based/recording_signal_publisher.py line 25). -/
def runPubOps (ops : List PubOp) : WorkflowTable :=
  ops.foldl applyPubOp []

/-! ### `RecordingWorkflow.run` (src/event_based/recording_workflow.py)

The published lifecycle events, in order, for each way the supervision
loop (lines 66-84) can end.  Each loop iteration reads, in this order:
`recording_task.done()`, `stop_signal_received`,
`cancel_signal_received`; the iteration's observations are modelled as
a triple of booleans, and the schedule as the list of triples the loop
would read on successive iterations. -/

inductive WEvent where
  | started
  | stopped
  | fileSaved
  | failed
  deriving DecidableEq, Repr

inductive LoopExit where
  | taskDone
  | stopSignal
  | cancelSignal
  deriving DecidableEq, Repr

/-- First condition observed by the polling loop, with the `if` order of
lines 66-84: task completion, then stop, then cancel; `none` when the
schedule runs out with the loop still spinning. -/
def loopOutcome : List (Bool × Bool × Bool) → Option LoopExit
  | [] => none
  | (done, stop, cancel) :: rest =>
    if done then some .taskDone
    else if stop then some .stopSignal
    else if cancel then some .cancelSignal
    else loopOutcome rest

/-- Events published by `RecordingWorkflow.run` on a successful
recording, per loop outcome (src/event_based/recording_workflow.py
lines 37-112, 142-163):

* `RecordingStarted` is published right after the activity task is
  created (lines 59-61);
* on a stop signal, `_stop_recording` publishes `RecordingStopped`
  (lines 142-163), then the loop breaks, the task is not cancelled, so
  its result is awaited, saved, and `FileSaved` is published
  (lines 87-109);
* on natural completion the task result is saved and only `FileSaved`
  follows `RecordingStarted`;
* on a cancel signal `_cancel_recording` cancels the task (lines
  165-170) and no further event is published. -/
def runEvents (schedule : List (Bool × Bool × Bool)) : List WEvent :=
  WEvent.started ::
    match loopOutcome schedule with
    | some .taskDone => [WEvent.fileSaved]
    | some .stopSignal => [WEvent.stopped, WEvent.fileSaved]
    | some .cancelSignal => []
    | none => []

/-! ### Helper lemmas -/

theorem canStartRecording_of_ge (st : KSHState) (now : ℚ) (cfg : KSHConfig)
    (h : now - st.lastRecordingEndTime ≥ cfg.cooldownPeriod) :
    canStartRecording st now cfg = true := by
  unfold canStartRecording
  split <;> simp [h]

theorem canStartRecording_of_first (st : KSHState) (now : ℚ) (cfg : KSHConfig)
    (h : st.lastRecordingEndTime = 0) :
    canStartRecording st now cfg = true := by
  unfold canStartRecording
  simp [h]

theorem canStartRecording_false (st : KSHState) (now : ℚ) (cfg : KSHConfig)
    (hne : st.lastRecordingEndTime ≠ 0)
    (h : now - st.lastRecordingEndTime < cfg.cooldownPeriod) :
    canStartRecording st now cfg = false := by
  unfold canStartRecording
  simp [hne, not_le.mpr h]

theorem canStopRecording_of_ge (st : KSHState) (now : ℚ) (cfg : KSHConfig)
    (h : now - st.recordingStartTime ≥ cfg.minRecordingDuration) :
    canStopRecording st now cfg = true := by
  unfold canStopRecording
  split <;> simp [h]

theorem canStopRecording_false (st : KSHState) (now : ℚ) (cfg : KSHConfig)
    (hne : st.recordingStartTime ≠ 0)
    (h : now - st.recordingStartTime < cfg.minRecordingDuration) :
    canStopRecording st now cfg = false := by
  unfold canStopRecording
  simp [hne, not_le.mpr h]

theorem insertKey_idem (k : KeyVal) (l : List KeyVal) :
    insertKey k (insertKey k l) = insertKey k l := by
  by_cases h : k ∈ l
  · simp [insertKey, h]
  · simp [insertKey, h]

/-! ### Claims -/

/-- C1: When the exit combination is pressed while the state is
`Recording`, `StatefulKeyboardHandler` emits exactly
`[CancelRecordingSignal(reason="exit_requested"), ExitSignal]` in that
order, and afterwards the recording state is `IDLE` with no current
session id. -/
theorem exit_while_recording_emits_cancel_then_exit
    (cfg : SKHConfig) (fresh sid : String) (st : SKHState) (key : KeyVal)
    (hrec : st.recordingState = RecordingState.RECORDING)
    (hsid : st.currentSessionId = some sid)
    (hne : sid ≠ "")
    (hact : isComboPressed cfg.activationKeys (insertKey key st.pressedKeys) = false)
    (hexit : isComboPressed cfg.exitKeys (insertKey key st.pressedKeys) = true) :
    (skhOnKeyPress cfg fresh st key).2 =
        [Sig.cancel sid "exit_requested", Sig.exitSig] ∧
    (skhOnKeyPress cfg fresh st key).1.recordingState = RecordingState.IDLE ∧
    (skhOnKeyPress cfg fresh st key).1.currentSessionId = none := by
  simp [skhOnKeyPress, hact, hexit, handleExit, hrec, hsid, sessionTruthy, hne]

theorem exit_while_recording_emits_cancel_then_exit_witness :
    (skhOnKeyPress ⟨[.ch "a"], [.ch "q"]⟩ "u" ⟨[], .RECORDING, some "session-u"⟩
        (.ch "q")).2 = [Sig.cancel "session-u" "exit_requested", Sig.exitSig] ∧
    (skhOnKeyPress ⟨[.ch "a"], [.ch "q"]⟩ "u" ⟨[], .RECORDING, some "session-u"⟩
        (.ch "q")).1.recordingState = RecordingState.IDLE ∧
    (skhOnKeyPress ⟨[.ch "a"], [.ch "q"]⟩ "u" ⟨[], .RECORDING, some "session-u"⟩
        (.ch "q")).1.currentSessionId = none :=
  exit_while_recording_emits_cancel_then_exit _ "u" "session-u" _ _
    rfl rfl (by decide) (by decide) (by decide)

/-- C8 counterexample: a shortcut specification with a doubled `+`
delimiter does not fail; `_parse_key_combination` returns a combination
in which the empty segment appears as the literal empty-string token.
The source function (src/input_handler.py lines 194-203 and
src/keyboard_controller.py lines 146-163) has no error path at all. -/
theorem parse_empty_segment_counterexample :
    parseKeyCombination "ctrl++a" =
      [KeyVal.special .ctrl, KeyVal.ch "", KeyVal.ch "a"] := by
  decide

/-- C8 amended: parsing never fails; every empty segment of the
specification string (leading, trailing, or doubled `+`) is kept in the
resulting combination as a literal empty-string key token at the same
position. -/
theorem parse_keeps_empty_segments (s : String) (i : ℕ)
    (h : (splitPlus (s.data.map Char.toLower))[i]? = some []) :
    (parseKeyCombination s)[i]? = some (KeyVal.ch "") := by
  simp [parseKeyCombination, List.getElem?_map, h]
  rfl

theorem parse_keeps_empty_segments_witness :
    (parseKeyCombination "ctrl++a")[1]? = some (KeyVal.ch "") :=
  parse_keeps_empty_segments "ctrl++a" 1 (by decide)

theorem keys_dictInsert (t : WorkflowTable) (k v : String) :
    (dictInsert t k v).map (·.1) =
      if t.any (fun p => p.1 = k) then t.map (·.1) else t.map (·.1) ++ [k] := by
  unfold dictInsert
  split
  · rw [List.map_map]
    refine List.map_congr_left fun p _ => ?_
    by_cases hp : p.1 = k <;> simp [hp]
  · simp

theorem nodup_keys_applyPubOp (t : WorkflowTable) (op : PubOp)
    (h : (t.map (·.1)).Nodup) : ((applyPubOp t op).map (·.1)).Nodup := by
  cases op with
  | start sid ok =>
    cases ok with
    | false => exact h
    | true =>
      show ((dictInsert t sid _).map (·.1)).Nodup
      rw [keys_dictInsert]
      split
      · exact h
      · rename_i hany
        have hnotmem : sid ∉ t.map (·.1) := by
          intro hmem
          rcases List.mem_map.mp hmem with ⟨p, hp, hpk⟩
          exact hany (by rw [List.any_eq_true]; exact ⟨p, hp, by simp [hpk]⟩)
        simp [List.nodup_append, h, List.disjoint_singleton, hnotmem]
  | stop sid ok => exact h
  | cancel sid ok =>
    simp only [applyPubOp]
    cases hg : dictGet t sid with
    | none => exact h
    | some w =>
      cases ok with
      | false => simpa using h
      | true =>
        simp only [if_true]
        exact h.sublist ((List.filter_sublist t).map _)
  | exitAll => simp [applyPubOp]

theorem nodup_keys_foldl (ops : List PubOp) (t : WorkflowTable)
    (h : (t.map (·.1)).Nodup) :
    ((ops.foldl applyPubOp t).map (·.1)).Nodup := by
  induction ops generalizing t with
  | nil => exact h
  | cons op rest ih => exact ih _ (nodup_keys_applyPubOp t op h)

theorem dictGet_dictPop (t : WorkflowTable) (k : String) :
    dictGet (dictPop t k) k = none := by
  induction t with
  | nil => rfl
  | cons p rest ih =>
    by_cases hp : p.1 = k
    · simp only [dictPop] at ih ⊢
      simpa [hp] using ih
    · simp only [dictPop] at ih ⊢
      simp only [dictGet] at ih ⊢
      simp [List.find?, hp, ih]

/-- C2 counterexample: starting a session and then handling its Stop
leaves the session's entry in `active_workflows`:
`_handle_stop_recording` sends the stop signal to the workflow but
never removes the table entry, even though the session is now
`Stopped`. -/
theorem workflow_table_stop_keeps_entry :
    dictGet (runPubOps [.start "s" true, .stop "s" true]) "s" =
      some "recording-s" := by
  decide

/-- C2 amended: for every interleaving of Start/Stop/Cancel/Exit handler
invocations, the `active_workflows` table holds at most one entry per
session id (its keys are pairwise distinct); an entry is removed when
its session is cancelled — a successfully delivered Cancel removes the
session's entry and Exit clears the whole table — but handling a Stop
never removes an entry. -/
theorem workflow_table_invariant :
    (∀ ops : List PubOp, ((runPubOps ops).map (·.1)).Nodup) ∧
    (∀ (t : WorkflowTable) (sid : String),
      dictGet (applyPubOp t (.cancel sid true)) sid = none) ∧
    (∀ (t : WorkflowTable) (sid : String), applyPubOp t (.stop sid true) = t) ∧
    (∀ t : WorkflowTable, applyPubOp t .exitAll = []) := by
  refine ⟨fun ops => nodup_keys_foldl ops [] (by simp), ?_, fun _ _ => rfl, fun _ => rfl⟩
  intro t sid
  show dictGet (match dictGet t sid with
        | none => t
        | some _ => if true then dictPop t sid else t) sid = none
  cases hg : dictGet t sid with
  | none => simpa using hg
  | some w => simpa using dictGet_dictPop t sid

/-- C3 counterexample: when the supervision loop observes a stop signal,
`RecordingWorkflow.run` publishes `RecordingStopped` (from
`_stop_recording`) strictly before `FileSaved`, not after it as the
claim states. -/
theorem stop_event_order_counterexample :
    runEvents [(false, true, false)] =
      [WEvent.started, WEvent.stopped, WEvent.fileSaved] ∧
    List.indexOf WEvent.stopped (runEvents [(false, true, false)]) <
      List.indexOf WEvent.fileSaved (runEvents [(false, true, false)]) := by
  decide

/-- C3 amended: whenever the supervision loop ends because a Stop
instruction was observed, the workflow publishes exactly
`[RecordingStarted, RecordingStopped, FileSaved]` — `Stopped` is
published before `Saved`. -/
theorem stop_publishes_stopped_then_saved (schedule : List (Bool × Bool × Bool))
    (h : loopOutcome schedule = some .stopSignal) :
    runEvents schedule = [WEvent.started, WEvent.stopped, WEvent.fileSaved] := by
  simp [runEvents, h]

theorem stop_publishes_stopped_then_saved_witness :
    runEvents [(false, false, false), (false, true, false)] =
      [WEvent.started, WEvent.stopped, WEvent.fileSaved] :=
  stop_publishes_stopped_then_saved _ (by decide)

/-- C9 counterexample: in `InputHandler._trigger_command` a listener
exception is not caught: with two registered callbacks of which the
first raises, only the first is invoked — the exception propagates and
the second callback is never called. -/
theorem trigger_command_not_isolated :
    triggerCommandRun [Except.error "boom", Except.ok ()] =
      ([0], some "boom") := by
  decide

/-- C9 amended: `StatefulKeyboardHandler._emit_signal` catches and logs
every listener exception and invokes all registered callbacks in
registration order; but `InputHandler._trigger_command` has no
exception handling — the first raising callback's exception propagates
and the remaining callbacks are not invoked. -/
theorem listener_delivery :
    (∀ outcomes : List (Except String Unit),
      (emitSignalRun outcomes).1 = List.range outcomes.length) ∧
    (∀ (pre : List (Except String Unit)) (e : String)
        (post : List (Except String Unit)),
      (∀ x ∈ pre, x = Except.ok ()) →
      triggerCommandRun (pre ++ Except.error e :: post) =
        (List.range (pre.length + 1), some e)) := by
  constructor
  · intro outcomes
    induction outcomes with
    | nil => rfl
    | cons o rest ih =>
      cases o <;> simp [emitSignalRun, ih, List.range_succ_eq_map]
  · intro pre e post hpre
    induction pre with
    | nil => rfl
    | cons o rest ih =>
      have ho := hpre o (List.mem_cons_self _ _)
      subst ho
      have := ih fun x hx => hpre x (List.mem_cons_of_mem _ hx)
      simp [triggerCommandRun, this, List.range_succ_eq_map]

theorem listener_delivery_witness :
    (emitSignalRun [Except.error "boom", Except.ok ()]).1 = List.range 2 ∧
    triggerCommandRun [Except.ok (), Except.error "boom", Except.ok ()] =
      (List.range 2, some "boom") :=
  ⟨listener_delivery.1 [Except.error "boom", Except.ok ()],
   listener_delivery.2 [Except.ok ()] "boom" [Except.ok ()]
     (fun x hx => by rw [List.mem_singleton] at hx; exact hx)⟩

/-- C5: In hold mode, while recording, a release before
`min_recording_duration` has elapsed since `recording_start_time` emits
no Stop and the state remains Recording; a qualifying release — one of
a record-combination key (the period token, a direct token match, or an
equivalent modifier) — after the duration has elapsed emits exactly one
`STOP_RECORDING`. -/
theorem hold_mode_release_stop_gate
    (cfg : KSHConfig) (st : KSHState) (kv : KeyVal) (now : ℚ)
    (hhold : cfg.toggleMode = false)
    (hrec : st.isRecording = true) :
    (st.recordingStartTime ≠ 0 →
      now - st.recordingStartTime < cfg.minRecordingDuration →
      (onKeyRelease cfg st kv now).signals = [] ∧
        (onKeyRelease cfg st kv now).state.isRecording = true) ∧
    (((kv = KeyVal.ch "." ∨ kv = KeyVal.code '.') ∧
        cfg.recordKeys.contains (KeyVal.ch ".") = true) ∨
      releaseMatches kv cfg.recordKeys = true →
      now - st.recordingStartTime ≥ cfg.minRecordingDuration →
      (onKeyRelease cfg st kv now).signals = [InputCommand.STOP_RECORDING]) := by
  constructor
  · intro hne hlt
    have hgate : canStopRecording
        ⟨removeKey kv st.pressedKeys, true, st.recordingStartTime,
          st.lastRecordingEndTime, st.lastShortcutTime⟩ now cfg = false :=
      canStopRecording_false _ _ _ hne hlt
    simp [onKeyRelease, hhold, hrec, hgate]
  · intro hq hge
    have hgate : canStopRecording
        ⟨removeKey kv st.pressedKeys, true, st.recordingStartTime,
          st.lastRecordingEndTime, st.lastShortcutTime⟩ now cfg = true :=
      canStopRecording_of_ge _ _ _ hge
    rcases hq with ⟨hkv, hcont⟩ | hm
    · have hmem : KeyVal.ch "." ∈ cfg.recordKeys := by simpa using hcont
      rcases hkv with rfl | rfl <;>
        simp [onKeyRelease, hhold, hrec, hgate, hmem]
    · rcases eq_or_ne kv (KeyVal.ch ".") with rfl | h1
      · by_cases h3 : KeyVal.ch "." ∈ cfg.recordKeys <;>
          simp [onKeyRelease, hhold, hrec, hgate, h3, hm]
      · rcases eq_or_ne kv (KeyVal.code '.') with rfl | h2
        · by_cases h3 : KeyVal.ch "." ∈ cfg.recordKeys <;>
            simp [onKeyRelease, hhold, hrec, hgate, h3, hm]
        · simp [onKeyRelease, hhold, hrec, hgate, h1, h2, hm]

theorem hold_mode_release_stop_gate_witness :
    ((onKeyRelease
        ⟨[KeyVal.ch "a"], [KeyVal.ch "q"], [KeyVal.ch "w"], false, 1, 1/2, 1/2⟩
        ⟨[KeyVal.ch "a"], true, 2, 0, 0⟩ (KeyVal.ch "a") (5/2)).signals = [] ∧
      (onKeyRelease
        ⟨[KeyVal.ch "a"], [KeyVal.ch "q"], [KeyVal.ch "w"], false, 1, 1/2, 1/2⟩
        ⟨[KeyVal.ch "a"], true, 2, 0, 0⟩ (KeyVal.ch "a") (5/2)).state.isRecording
        = true) ∧
    (onKeyRelease
        ⟨[KeyVal.ch "a"], [KeyVal.ch "q"], [KeyVal.ch "w"], false, 1, 1/2, 1/2⟩
        ⟨[KeyVal.ch "a"], true, 2, 0, 0⟩ (KeyVal.ch "a") 4).signals =
      [InputCommand.STOP_RECORDING] :=
  ⟨(hold_mode_release_stop_gate _ _ _ _ rfl rfl).1 (by norm_num) (by norm_num),
   (hold_mode_release_stop_gate _ _ _ _ rfl rfl).2 (Or.inr (by decide))
     (by norm_num)⟩

/-- C6: In toggle mode a Start attempted before `cooldown_period` has
elapsed since the previous recording end is dropped with no signal
emitted and the state stays non-recording; moreover
`_can_start_recording` returns `true` on first-ever use (no prior end
timestamp) and otherwise computes
`now - last_recording_end_time >= cooldown_period`. -/
theorem cooldown_gate
    (cfg : KSHConfig) (st : KSHState) (kv : KeyVal) (now : ℚ)
    (htog : cfg.toggleMode = true)
    (hnotrec : st.isRecording = false)
    (hexit : isCombinationPressed cfg.exitKeys (insertKey kv st.pressedKeys) = false)
    (hrec : isCombinationPressed cfg.recordKeys (insertKey kv st.pressedKeys) = true)
    (hdeb : now - st.lastShortcutTime > cfg.shortcutCooldown)
    (hne : st.lastRecordingEndTime ≠ 0)
    (hlt : now - st.lastRecordingEndTime < cfg.cooldownPeriod) :
    (onKeyPress cfg st kv now).signals = [] ∧
    (onKeyPress cfg st kv now).state.isRecording = false ∧
    (∀ (st' : KSHState) (t : ℚ), st'.lastRecordingEndTime = 0 →
      canStartRecording st' t cfg = true) ∧
    (∀ (st' : KSHState) (t : ℚ), st'.lastRecordingEndTime ≠ 0 →
      (canStartRecording st' t cfg = true ↔
        t - st'.lastRecordingEndTime ≥ cfg.cooldownPeriod)) := by
  have hgate : canStartRecording
      ⟨insertKey kv st.pressedKeys, false, st.recordingStartTime,
        st.lastRecordingEndTime, now⟩ now cfg = false :=
    canStartRecording_false _ _ _ hne hlt
  refine ⟨?_, ?_, fun st' t h => canStartRecording_of_first st' t cfg h,
    fun st' t h => ?_⟩
  · simp [onKeyPress, hexit, hrec, hnotrec, htog, hdeb, hgate]
  · simp [onKeyPress, hexit, hrec, hnotrec, htog, hdeb, hgate]
  · unfold canStartRecording
    simp [h, ge_iff_le]

theorem cooldown_gate_witness :
    (onKeyPress
        ⟨[KeyVal.ch "a"], [KeyVal.ch "q"], [KeyVal.ch "w"], true, 1, 1, 1/2⟩
        ⟨[], false, 0, 2, 0⟩ (KeyVal.ch "a") (5/2)).signals = [] ∧
    (onKeyPress
        ⟨[KeyVal.ch "a"], [KeyVal.ch "q"], [KeyVal.ch "w"], true, 1, 1, 1/2⟩
        ⟨[], false, 0, 2, 0⟩ (KeyVal.ch "a") (5/2)).state.isRecording = false ∧
    (∀ (st' : KSHState) (t : ℚ), st'.lastRecordingEndTime = 0 →
      canStartRecording st' t
        ⟨[KeyVal.ch "a"], [KeyVal.ch "q"], [KeyVal.ch "w"], true, 1, 1, 1/2⟩
        = true) ∧
    (∀ (st' : KSHState) (t : ℚ), st'.lastRecordingEndTime ≠ 0 →
      (canStartRecording st' t
          ⟨[KeyVal.ch "a"], [KeyVal.ch "q"], [KeyVal.ch "w"], true, 1, 1, 1/2⟩
          = true ↔ t - st'.lastRecordingEndTime ≥ 1)) :=
  cooldown_gate _ _ _ _ rfl rfl (by decide) (by decide) (by norm_num)
    (by norm_num) (by norm_num)

/-- C10: In toggle mode a record-shortcut press that passes the debounce
window but is then dropped by a gate — the cooldown gate while idle
(src/input_handler.py lines 291-304) or the minimum-duration gate
while recording (lines 305-318) — still updates `last_shortcut_time`
(line 289, before either gate is checked); hence a second press of the
shortcut within `shortcut_cooldown` of the dropped press emits no
signal, regardless of whether the cooldown or minimum-duration gate
would by then pass. -/
theorem dropped_press_updates_debounce
    (cfg : KSHConfig) (st : KSHState) (kv : KeyVal) (t1 : ℚ)
    (htog : cfg.toggleMode = true)
    (hexit : isCombinationPressed cfg.exitKeys (insertKey kv st.pressedKeys) = false)
    (hcancel : isCombinationPressed cfg.cancelKeys (insertKey kv st.pressedKeys) = false)
    (hrec : isCombinationPressed cfg.recordKeys (insertKey kv st.pressedKeys) = true)
    (hdeb : t1 - st.lastShortcutTime > cfg.shortcutCooldown)
    (hdrop :
      (st.isRecording = false ∧ st.lastRecordingEndTime ≠ 0 ∧
        t1 - st.lastRecordingEndTime < cfg.cooldownPeriod) ∨
      (st.isRecording = true ∧ st.recordingStartTime ≠ 0 ∧
        t1 - st.recordingStartTime < cfg.minRecordingDuration)) :
    (onKeyPress cfg st kv t1).signals = [] ∧
    (onKeyPress cfg st kv t1).state.lastShortcutTime = t1 ∧
    (∀ t2 : ℚ, t2 - t1 ≤ cfg.shortcutCooldown →
      (onKeyPress cfg (onKeyPress cfg st kv t1).state kv t2).signals = []) := by
  rcases hdrop with ⟨hnotrec, hne, hlt⟩ | ⟨hisrec, hne, hlt⟩
  · have hgate : canStartRecording
        ⟨insertKey kv st.pressedKeys, false, st.recordingStartTime,
          st.lastRecordingEndTime, t1⟩ t1 cfg = false :=
      canStartRecording_false _ _ _ hne hlt
    have hstate : (onKeyPress cfg st kv t1).state =
        ⟨insertKey kv st.pressedKeys, false, st.recordingStartTime,
          st.lastRecordingEndTime, t1⟩ := by
      simp [onKeyPress, hexit, hrec, hnotrec, htog, hdeb, hgate]
    refine ⟨?_, ?_, ?_⟩
    · simp [onKeyPress, hexit, hrec, hnotrec, htog, hdeb, hgate]
    · rw [hstate]
    · intro t2 h2
      rw [hstate]
      have hdeb2 : ¬(t2 - t1 > cfg.shortcutCooldown) := not_lt.mpr h2
      simp [onKeyPress, insertKey_idem, hexit, hrec, hnotrec, htog, hdeb2]
  · have hgate : canStopRecording
        ⟨insertKey kv st.pressedKeys, true, st.recordingStartTime,
          st.lastRecordingEndTime, t1⟩ t1 cfg = false :=
      canStopRecording_false _ _ _ hne hlt
    have hstate : (onKeyPress cfg st kv t1).state =
        ⟨insertKey kv st.pressedKeys, true, st.recordingStartTime,
          st.lastRecordingEndTime, t1⟩ := by
      simp [onKeyPress, hexit, hcancel, hrec, hisrec, htog, hdeb, hgate]
    refine ⟨?_, ?_, ?_⟩
    · simp [onKeyPress, hexit, hcancel, hrec, hisrec, htog, hdeb, hgate]
    · rw [hstate]
    · intro t2 h2
      rw [hstate]
      have hdeb2 : ¬(t2 - t1 > cfg.shortcutCooldown) := not_lt.mpr h2
      simp [onKeyPress, insertKey_idem, hexit, hcancel, hrec, htog, hdeb2]

theorem dropped_press_updates_debounce_witness :
    ((onKeyPress
        ⟨[KeyVal.ch "a"], [KeyVal.ch "q"], [KeyVal.ch "w"], true, 1, 2, 1/2⟩
        ⟨[], false, 0, 1, 0⟩ (KeyVal.ch "a") 1).signals = [] ∧
      (onKeyPress
        ⟨[KeyVal.ch "a"], [KeyVal.ch "q"], [KeyVal.ch "w"], true, 1, 2, 1/2⟩
        ⟨[], false, 0, 1, 0⟩ (KeyVal.ch "a") 1).state.lastShortcutTime = 1 ∧
      (onKeyPress
        ⟨[KeyVal.ch "a"], [KeyVal.ch "q"], [KeyVal.ch "w"], true, 1, 2, 1/2⟩
        (onKeyPress
          ⟨[KeyVal.ch "a"], [KeyVal.ch "q"], [KeyVal.ch "w"], true, 1, 2, 1/2⟩
          ⟨[], false, 0, 1, 0⟩ (KeyVal.ch "a") 1).state
        (KeyVal.ch "a") (5/4)).signals = []) ∧
    ((onKeyPress
        ⟨[KeyVal.ch "a"], [KeyVal.ch "q"], [KeyVal.ch "w"], true, 1, 2, 1/2⟩
        ⟨[], true, 3/4, 0, 0⟩ (KeyVal.ch "a") 1).signals = [] ∧
      (onKeyPress
        ⟨[KeyVal.ch "a"], [KeyVal.ch "q"], [KeyVal.ch "w"], true, 1, 2, 1/2⟩
        ⟨[], true, 3/4, 0, 0⟩ (KeyVal.ch "a") 1).state.lastShortcutTime = 1 ∧
      (onKeyPress
        ⟨[KeyVal.ch "a"], [KeyVal.ch "q"], [KeyVal.ch "w"], true, 1, 2, 1/2⟩
        (onKeyPress
          ⟨[KeyVal.ch "a"], [KeyVal.ch "q"], [KeyVal.ch "w"], true, 1, 2, 1/2⟩
          ⟨[], true, 3/4, 0, 0⟩ (KeyVal.ch "a") 1).state
        (KeyVal.ch "a") (5/4)).signals = []) :=
  ⟨⟨(dropped_press_updates_debounce _ _ _ _ rfl (by decide) (by decide)
      (by decide) (by norm_num) (Or.inl ⟨rfl, by norm_num, by norm_num⟩)).1,
    (dropped_press_updates_debounce _ _ _ _ rfl (by decide) (by decide)
      (by decide) (by norm_num) (Or.inl ⟨rfl, by norm_num, by norm_num⟩)).2.1,
    (dropped_press_updates_debounce _ _ _ _ rfl (by decide) (by decide)
      (by decide) (by norm_num) (Or.inl ⟨rfl, by norm_num, by norm_num⟩)).2.2
      (5/4) (by norm_num)⟩,
   ⟨(dropped_press_updates_debounce _ _ _ _ rfl (by decide) (by decide)
      (by decide) (by norm_num) (Or.inr ⟨rfl, by norm_num, by norm_num⟩)).1,
    (dropped_press_updates_debounce _ _ _ _ rfl (by decide) (by decide)
      (by decide) (by norm_num) (Or.inr ⟨rfl, by norm_num, by norm_num⟩)).2.1,
    (dropped_press_updates_debounce _ _ _ _ rfl (by decide) (by decide)
      (by decide) (by norm_num) (Or.inr ⟨rfl, by norm_num, by norm_num⟩)).2.2
      (5/4) (by norm_num)⟩⟩

/-- C4: In toggle mode, starting from the initial idle state, three
presses of the record shortcut — each past the debounce window, with
the minimum-duration gate satisfied at the second press and the
cooldown gate satisfied at the third — emit exactly
`[START_RECORDING, STOP_RECORDING, START_RECORDING]`. -/
theorem toggle_three_presses
    (cfg : KSHConfig) (kv : KeyVal) (t1 t2 t3 : ℚ)
    (htog : cfg.toggleMode = true)
    (hrec : isCombinationPressed cfg.recordKeys [kv] = true)
    (hexit : isCombinationPressed cfg.exitKeys [kv] = false)
    (hcancel : isCombinationPressed cfg.cancelKeys [kv] = false)
    (hd1 : t1 - 0 > cfg.shortcutCooldown)
    (hd2 : t2 - t1 > cfg.shortcutCooldown)
    (hd3 : t3 - t2 > cfg.shortcutCooldown)
    (hmin : t2 - t1 ≥ cfg.minRecordingDuration)
    (hcool : t3 - t2 ≥ cfg.cooldownPeriod) :
    (pressSeq cfg initialKSHState [(kv, t1), (kv, t2), (kv, t3)]).2 =
      [InputCommand.START_RECORDING, InputCommand.STOP_RECORDING,
        InputCommand.START_RECORDING] := by
  have hins0 : insertKey kv ([] : List KeyVal) = [kv] := by simp [insertKey]
  have hins1 : insertKey kv [kv] = [kv] := by simp [insertKey]
  have hstart1 : canStartRecording ⟨[kv], false, 0, 0, t1⟩ t1 cfg = true :=
    canStartRecording_of_first _ _ _ rfl
  have hd1' : cfg.shortcutCooldown < t1 := by simpa using hd1
  have h1 : onKeyPress cfg initialKSHState kv t1 =
      ⟨⟨[kv], true, t1, 0, t1⟩, [InputCommand.START_RECORDING], true⟩ := by
    simp [onKeyPress, initialKSHState, hins0, hexit, hrec, htog, hd1', hstart1]
  have hstop2 : canStopRecording ⟨[kv], true, t1, 0, t2⟩ t2 cfg = true :=
    canStopRecording_of_ge _ _ _ hmin
  have h2 : onKeyPress cfg ⟨[kv], true, t1, 0, t1⟩ kv t2 =
      ⟨⟨[kv], false, t1, t2, t2⟩, [InputCommand.STOP_RECORDING], true⟩ := by
    simp [onKeyPress, hins1, hexit, hrec, hcancel, htog, hd2, hstop2]
  have hstart3 : canStartRecording ⟨[kv], false, t1, t2, t3⟩ t3 cfg = true :=
    canStartRecording_of_ge _ _ _ hcool
  have h3 : onKeyPress cfg ⟨[kv], false, t1, t2, t2⟩ kv t3 =
      ⟨⟨[kv], true, t3, t2, t3⟩, [InputCommand.START_RECORDING], true⟩ := by
    simp [onKeyPress, hins1, hexit, hrec, htog, hd3, hstart3]
  simp [pressSeq, h1, h2, h3]

theorem toggle_three_presses_witness :
    (pressSeq ⟨[KeyVal.ch "a"], [KeyVal.ch "q"], [KeyVal.ch "w"], true, 1, 1/2, 1/2⟩
        initialKSHState
        [(KeyVal.ch "a", 1), (KeyVal.ch "a", 2), (KeyVal.ch "a", 3)]).2 =
      [InputCommand.START_RECORDING, InputCommand.STOP_RECORDING,
        InputCommand.START_RECORDING] :=
  toggle_three_presses _ _ 1 2 3 rfl (by decide) (by decide) (by decide)
    (by norm_num) (by norm_num) (by norm_num) (by norm_num) (by norm_num)

/-- Left/right modifier variants: the members of the `KEY_EQUIVALENTS`
groups other than the four canonical dictionary keys.  These occur as
combination tokens when the shortcut specification names them
explicitly (e.g. `"ctrl_l"`). -/
def nonCanonicalModifier (k : KeyVal) : Bool :=
  match k with
  | .special .ctrl_l | .special .ctrl_r
  | .special .shift_l | .special .shift_r
  | .special .alt_l | .special .alt_r
  | .special .cmd_l | .special .cmd_r => true
  | _ => false

/-- C7 counterexample: `ctrl_l` is an equivalent variant of `ctrl`
(member of its `KEY_EQUIVALENTS` group), yet for the combination
`[ctrl_l]` — producible from the accepted shortcut token `"ctrl_l"` —
substituting the canonical `ctrl` for `ctrl_l` in the pressed set
changes the result of `_is_combination_pressed` from `True` to
`False`: a combination token outside `KEY_EQUIVALENTS` requires an
exact match. -/
theorem modifier_substitution_counterexample :
    KEY_EQUIVALENTS (KeyVal.special .ctrl) =
      some [KeyVal.special .ctrl, KeyVal.special .ctrl_l,
        KeyVal.special .ctrl_r] ∧
    parseKeyCombination "ctrl_l" = [KeyVal.special .ctrl_l] ∧
    isCombinationPressed [KeyVal.special .ctrl_l]
      [KeyVal.special .ctrl_l] = true ∧
    isCombinationPressed [KeyVal.special .ctrl_l]
      [KeyVal.special .ctrl] = false := by
  decide

theorem tokenMatches_subst (ck : KeyVal) (pressed : List KeyVal)
    (c v : SpecialKey) (eqs : List KeyVal)
    (hc : KEY_EQUIVALENTS (KeyVal.special c) = some eqs)
    (hv : KeyVal.special v ∈ eqs)
    (hck : nonCanonicalModifier ck = false) :
    tokenMatches ck (KeyVal.special c :: pressed) =
      tokenMatches ck (KeyVal.special v :: pressed) := by
  cases c <;> simp [KEY_EQUIVALENTS] at hc
  all_goals subst hc
  all_goals simp only [List.mem_cons, List.mem_singleton,
    KeyVal.special.injEq, List.not_mem_nil, or_false] at hv
  all_goals rcases hv with rfl | rfl | rfl
  all_goals
    cases ck with
    | special k =>
      cases k <;>
        simp_all [tokenMatches, nonCanonicalModifier, KEY_EQUIVALENTS,
          List.contains_cons, List.any_cons]
    | code c' => simp [tokenMatches, KEY_EQUIVALENTS, List.contains_cons]
    | ch s =>
      by_cases hs : KeyVal.ch s = KeyVal.ch "."
      · simp [tokenMatches, hs, List.contains_cons]
      · simp [tokenMatches, hs, KEY_EQUIVALENTS, List.contains_cons]

/-- C7 amended: for every key combination containing no explicit
left/right modifier-variant token, and every pressed-key set,
substituting any member of a canonical modifier's `KEY_EQUIVALENTS`
group for that canonical modifier in the pressed set gives the same
`_is_combination_pressed` result. -/
theorem modifier_substitution
    (combo pressed : List KeyVal) (c v : SpecialKey) (eqs : List KeyVal)
    (hc : KEY_EQUIVALENTS (KeyVal.special c) = some eqs)
    (hv : KeyVal.special v ∈ eqs)
    (hcombo : ∀ k ∈ combo, nonCanonicalModifier k = false) :
    isCombinationPressed combo (KeyVal.special c :: pressed) =
      isCombinationPressed combo (KeyVal.special v :: pressed) := by
  induction combo with
  | nil => rfl
  | cons ck rest ih =>
    have h1 := tokenMatches_subst ck pressed c v eqs hc hv
      (hcombo ck (List.mem_cons_self _ _))
    have h2 := ih fun k hk => hcombo k (List.mem_cons_of_mem _ hk)
    simp only [isCombinationPressed, List.all_cons] at h2 ⊢
    rw [h1, h2]

theorem modifier_substitution_witness :
    isCombinationPressed [KeyVal.special .ctrl, KeyVal.ch "a"]
        (KeyVal.special .ctrl :: [KeyVal.ch "a"]) =
      isCombinationPressed [KeyVal.special .ctrl, KeyVal.ch "a"]
        (KeyVal.special .ctrl_l :: [KeyVal.ch "a"]) :=
  modifier_substitution _ _ .ctrl .ctrl_l
    [KeyVal.special .ctrl, KeyVal.special .ctrl_l, KeyVal.special .ctrl_r]
    rfl (by decide) (by decide)

end VoiceUtils
